import Mathlib

/-!
Verification of the message-and-attachment ingestion pipeline of
Showcase-Studio (src/src-tauri/src/discord.rs, `start_initial_indexing`),
against its natural-language specification.

The Rust code is shallowly embedded: pure computations become Lean
functions, the stateful per-channel loop becomes explicit state passing
over a finite "script" of environment responses (page fetch results,
per-attachment download outcomes, transaction verdicts).  Machine
integers are modelled as `Int`/`Nat` (all values involved — timestamps,
HTTP status codes, counters — stay far from any overflow boundary in the
source).  Rust string primitives (`to_lowercase`, `starts_with`,
`ends_with`, `format!` concatenation) are modelled as executable
functions over `String.data`; `to_lowercase` is modelled for ASCII,
which covers every extension and MIME literal the code compares
against.
-/

namespace Showcase

/-! ## Rust string primitives -/

/-- ASCII lowering of one character (model of what Rust `to_lowercase`
does on the ASCII range; the code only compares against ASCII
literals). -/
def charToLower (c : Char) : Char :=
  if 65 ≤ c.toNat ∧ c.toNat ≤ 90 then Char.ofNat (c.toNat + 32) else c

/-- Model of Rust `str::to_lowercase`. -/
def strToLower (s : String) : String := ⟨s.data.map charToLower⟩

/-- Model of Rust `str::ends_with`. -/
def strEndsWith (s suffix : String) : Bool := suffix.data.isSuffixOf s.data

/-- Model of Rust `str::starts_with`. -/
def strStartsWith (s pre : String) : Bool := pre.data.isPrefixOf s.data

/-! ## Attachment classifier (discord.rs lines 373–381)

```rust
let filename_lower = attachment_meta.filename.to_lowercase();
let ct = attachment_meta.content_type.as_deref();
let is_image = ct
    .map_or(false, |t| t.starts_with("image/") && t != "image/gif")
    || (!filename_lower.ends_with(".gif")
        && (filename_lower.ends_with(".png")
            || filename_lower.ends_with(".jpg")
            || filename_lower.ends_with(".jpeg")
            || filename_lower.ends_with(".webp")));
```
-/

def is_image (filename : String) (content_type : Option String) : Bool :=
  let filename_lower := strToLower filename
  (match content_type with
   | some t => strStartsWith t "image/" && t != "image/gif"
   | none => false)
  || (!strEndsWith filename_lower ".gif"
      && (strEndsWith filename_lower ".png"
          || strEndsWith filename_lower ".jpg"
          || strEndsWith filename_lower ".jpeg"
          || strEndsWith filename_lower ".webp"))

/-- The classifier condition as the specification states it (§4.3):
(a) declared content type starts with `image/` and is not exactly
`image/gif`, or (b) the lowercased filename does not end in `.gif` and
ends in one of `.png`, `.jpg`, `.jpeg`, `.webp`.  Written from the
spec's words, to be compared against `is_image` (which is written from
the source). -/
def qualifies_per_spec (filename : String) (content_type : Option String) : Prop :=
  (∃ t, content_type = some t ∧ strStartsWith t "image/" = true ∧ t ≠ "image/gif")
  ∨ (strEndsWith (strToLower filename) ".gif" = false
     ∧ (strEndsWith (strToLower filename) ".png" = true
        ∨ strEndsWith (strToLower filename) ".jpg" = true
        ∨ strEndsWith (strToLower filename) ".jpeg" = true
        ∨ strEndsWith (strToLower filename) ".webp" = true))

end Showcase

namespace Showcase

/-! ## CutoffPolicy (discord.rs lines 267–275)

```rust
let now = Utc::now();
let first_day_current = NaiveDate::from_ymd_opt(now.year(), now.month(), 1).unwrap();
let target_month_start = first_day_current
    .checked_sub_months(Months::new(1))
    .map(|d| NaiveDate::from_ymd_opt(d.year(), d.month(), 1).unwrap())
    .unwrap_or_else(|| NaiveDate::from_ymd_opt(now.year() - 1, 12, 1).unwrap());
let start_utc: DateTime<Utc> =
    Utc.from_utc_datetime(&target_month_start.and_hms_opt(0, 0, 0).unwrap());
let start_ts = start_utc.timestamp();
```

The chrono library calls are embedded by their documented semantics.
A `.unwrap()` panic is modelled as `none`; the whole computation
returns `Option`, so "does not panic" is the statement that the result
is `some _`.
-/

/-- Proleptic-Gregorian leap-year rule (chrono). -/
def is_leap_year (y : Int) : Bool :=
  (y % 4 == 0 && y % 100 != 0) || y % 400 == 0

def days_in_month (y : Int) (m : Nat) : Nat :=
  match m with
  | 1 => 31 | 2 => if is_leap_year y then 29 else 28
  | 3 => 31 | 4 => 30 | 5 => 31 | 6 => 30 | 7 => 31
  | 8 => 31 | 9 => 30 | 10 => 31 | 11 => 30 | 12 => 31
  | _ => 0

structure Date where
  year : Int
  month : Nat
  day : Nat
deriving DecidableEq

/-- chrono's representable year range (`i32::MIN >> 13`, `i32::MAX >> 13`). -/
def chrono_min_year : Int := -262144

def chrono_max_year : Int := 262143

/-- chrono `NaiveDate::from_ymd_opt`: `some` exactly for a calendar-valid
year/month/day within chrono's representable range. -/
def from_ymd_opt (y : Int) (m d : Nat) : Option Date :=
  if 1 ≤ m ∧ m ≤ 12 ∧ 1 ≤ d ∧ d ≤ days_in_month y m
     ∧ chrono_min_year ≤ y ∧ y ≤ chrono_max_year
  then some ⟨y, m, d⟩ else none

/-- chrono `NaiveDate::checked_sub_months` with a month count `n`:
work in total months (`year * 12 + month - 1`), subtract, split back
with euclidean division, clamp the day to the target month's length;
`none` when the result leaves the representable range. -/
def checked_sub_months (d : Date) (n : Nat) : Option Date :=
  let months : Int := d.year * 12 + ((d.month : Int) - 1) - (n : Int)
  if months < chrono_min_year * 12 ∨ chrono_max_year * 12 + 11 < months then none
  else
    let y := months / 12
    let m := (months % 12).toNat + 1
    some ⟨y, m, min d.day (days_in_month y m)⟩

/-- The target-month computation of discord.rs lines 268–272, for a run
whose wall clock reads year `y`, month `m`. -/
def compute_cutoff (y : Int) (m : Nat) : Option Date :=
  (from_ymd_opt y m 1).bind fun first =>
    match checked_sub_months first 1 with
    | some d => from_ymd_opt d.year d.month 1
    | none => from_ymd_opt (y - 1) 12 1

/-- Leap days in years `1..y-1` (helper for the epoch-day count). -/
def leaps_upto (y : Int) : Int :=
  (y - 1).fdiv 4 - (y - 1).fdiv 100 + (y - 1).fdiv 400

/-- Days in year `y` strictly before month `m`. -/
def days_before_month (y : Int) (m : Nat) : Nat :=
  (match m with
   | 1 => 0 | 2 => 31 | 3 => 59 | 4 => 90 | 5 => 120 | 6 => 151
   | 7 => 181 | 8 => 212 | 9 => 243 | 10 => 273 | 11 => 304 | 12 => 334
   | _ => 0)
  + (if 3 ≤ m ∧ is_leap_year y then 1 else 0)

/-- Days from 1970-01-01 to the given date (Gregorian). -/
def days_from_civil (d : Date) : Int :=
  365 * (d.year - 1970) + (leaps_upto d.year - leaps_upto 1970)
    + (days_before_month d.year d.month : Int) + ((d.day : Int) - 1)

/-- `start_ts`: the unix timestamp of the cutoff date at 00:00:00 UTC
(chrono `and_hms_opt(0,0,0)` + `from_utc_datetime` + `timestamp()`). -/
def start_ts_opt (y : Int) (m : Nat) : Option Int :=
  (compute_cutoff y m).map fun d => 86400 * days_from_civil d

/-- The per-message window test of discord.rs line 360: a message is
skipped exactly when `msg.timestamp.unix_timestamp() < start_ts`. -/
def in_window (start_ts ts : Int) : Bool :=
  if ts < start_ts then false else true

end Showcase

namespace Showcase

/-! ## Events

One constructor per `app.emit(...)` site in `start_initial_indexing`.
Payloads are modelled structurally: each constructor carries the data
interpolated into the format string at that site (error-detail strings
coming from external library errors are abstracted away). -/

inductive Event where
  | invalidChannel (chan : String)
  | startChannel (chan : String)
  | progressFetched (n : Nat)
  | downloading (filename : String) (indexed : Nat)
  | attachFailed (message_id : String)
  | dbError
  | fetchError (chan : String)
  | rateLimited
  | completeRun (processed : Nat)
deriving DecidableEq

/-- Whether the event is emitted on the "indexing-error" channel. -/
def Event.isIndexingError : Event → Bool
  | .invalidChannel _ => true
  | .attachFailed _ => true
  | .dbError => true
  | .fetchError _ => true
  | _ => false

/-! ## AttachmentDownloader (discord.rs lines 387–505)

Per-attachment behaviour of the external world.  `send` is the result
of `download_client.get(url).send().await` (an error, or a response
with an HTTP status); if a success status came back, `read_bytes` is
the result of `response.bytes().await` and `write` the combined result
of the blocking `create_dir_all` + `fs::write` task. -/

/-- Rust `Result` with the error detail abstracted away. -/
inductive RResult (A : Type) where
  | ok (a : A)
  | err
deriving DecidableEq

structure DlEnv where
  send : RResult Nat
  read_bytes : RResult Unit
  write : RResult Unit
deriving DecidableEq

structure Attachment where
  id : String
  filename : String
  content_type : Option String
  env : DlEnv
deriving DecidableEq

/-- reqwest `StatusCode::is_success`: 2xx. -/
def http_success (c : Nat) : Bool := 200 ≤ c && c < 300

/-- Split a character list at every occurrence of `sep` (the semantics
of Rust `split`; an empty input gives one empty piece). -/
def split_on_char (sep : Char) : List Char → List (List Char)
  | [] => [[]]
  | c :: rest =>
      let r := split_on_char sep rest
      if c == sep then [] :: r
      else match r with
        | [] => [[c]]
        | h :: t => (c :: h) :: t

/-- Rust `Path::file_name`-relevant part: the substring after the last
`/` (the model uses the Unix separator throughout). -/
def last_component (s : String) : String :=
  match (split_on_char (Char.ofNat 47) s.data).getLast? with
  | some c => ⟨c⟩
  | none => s

/-- Rust `Path::extension()`: the portion of the file name after the
final `.`; `none` when there is no file name (`.`, `..`, empty), no
embedded `.`, or the name starts with `.` and has no other `.`. -/
def rust_extension (filename : String) : Option String :=
  let name := last_component filename
  if name == "." || name == ".." then none
  else
    match split_on_char (Char.ofNat 46) name.data with
    | [] => none
    | [_] => none
    | [] :: [_] => none
    | parts => (parts.getLast?).map fun l => (⟨l⟩ : String)

/-- discord.rs lines 388–394: `{message_id}_{attachment_id}.{extension}`
with the extension defaulting to `png`. -/
def local_filename (message_id : String) (a : Attachment) : String :=
  message_id ++ "_" ++ a.id ++ "." ++ ((rust_extension a.filename).getD "png")

/-- discord.rs lines 395–398: `Path::new("cached").join(local_filename)`. -/
def relative_path (message_id : String) (a : Attachment) : String :=
  "cached/" ++ local_filename message_id a

inductive AttachStep where
  | saved (rel : String)
  | statusSkip
  | failed
deriving DecidableEq

structure AttachResult where
  step : AttachStep
  fs : List String
  downloads : Nat
  events : List Event
deriving DecidableEq

/-- One qualifying attachment (discord.rs lines 387–505): existence
check on the cache path, then — only on a miss — the HTTP GET, body
read and file write.  `fs` is the set of local filenames present in
the cache directory; `downloads` counts HTTP requests issued;
`indexed` is the global `total_images_saved_or_found` counter used in
the "Downloading" status payload.

A non-success HTTP status is only logged (`error!`) — the source sets
no failure flag in that branch — and the attachment loop continues. -/
def ensure_local (message_id : String) (a : Attachment) (fs : List String)
    (indexed : Nat) : AttachResult :=
  let lf := local_filename message_id a
  let rel := relative_path message_id a
  if lf ∈ fs then
    { step := .saved rel, fs := fs, downloads := 0, events := [] }
  else
    let ev := Event.downloading a.filename indexed
    match a.env.send with
    | .err => { step := .failed, fs := fs, downloads := 1, events := [ev] }
    | .ok c =>
      if http_success c then
        match a.env.read_bytes with
        | .err => { step := .failed, fs := fs, downloads := 1, events := [ev] }
        | .ok _ =>
          match a.env.write with
          | .err => { step := .failed, fs := fs, downloads := 1, events := [ev] }
          | .ok _ =>
            { step := .saved rel, fs := fs ++ [lf], downloads := 1, events := [ev] }
      else
        { step := .statusSkip, fs := fs, downloads := 1, events := [ev] }

/-! ## Per-message aggregation (discord.rs lines 365–523) -/

structure MsgResult where
  saved : List String
  failed : Bool
  fs : List String
  images : Nat
  downloads : Nat
  events : List Event
deriving DecidableEq

/-- The `for attachment_meta in msg.attachments` loop.  `acc.images` is
the absolute `total_images_saved_or_found` counter.  A `.failed` step
breaks out of the loop (`break`); `.statusSkip` just continues. -/
def attach_loop (message_id : String) : List Attachment → MsgResult → MsgResult
  | [], acc => acc
  | a :: rest, acc =>
    if !is_image a.filename a.content_type then
      attach_loop message_id rest acc
    else
      let r := ensure_local message_id a acc.fs acc.images
      match r.step with
      | .saved rel =>
          attach_loop message_id rest
            { acc with saved := acc.saved ++ [rel], fs := r.fs,
                       images := acc.images + 1,
                       downloads := acc.downloads + r.downloads,
                       events := acc.events ++ r.events }
      | .statusSkip =>
          attach_loop message_id rest
            { acc with fs := r.fs, downloads := acc.downloads + r.downloads,
                       events := acc.events ++ r.events }
      | .failed =>
          { acc with failed := true, fs := r.fs,
                     downloads := acc.downloads + r.downloads,
                     events := acc.events ++ r.events }

def process_message (message_id : String) (atts : List Attachment)
    (fs : List String) (images0 : Nat) : MsgResult :=
  attach_loop message_id atts
    { saved := [], failed := false, fs := fs, images := images0,
      downloads := 0, events := [] }

structure Message where
  id : String
  channel_id : String
  author_id : String
  author_name : String
  author_avatar : Option String
  content : String
  attachments : List Attachment
  timestamp : Int
deriving DecidableEq

structure PageAcc where
  batch : List (Message × List String)
  reached_older : Bool
  fs : List String
  images : Nat
  processed : Nat
  events : List Event
deriving DecidableEq

/-- One iteration of `for msg in msgs` (discord.rs lines 359–523):
skip (and flag) messages older than the cutoff; otherwise process the
attachments and push `(msg, saved_filenames)` onto the batch exactly
when no failure was flagged and at least one filename was recorded;
when a failure was flagged, emit the "indexing-error" event instead. -/
def page_step (start_ts : Int) (acc : PageAcc) (msg : Message) : PageAcc :=
  if msg.timestamp < start_ts then { acc with reached_older := true }
  else
    let r := process_message msg.id msg.attachments acc.fs acc.images
    let acc' := { acc with fs := r.fs, events := acc.events ++ r.events,
                           images := r.images }
    if !r.failed && !r.saved.isEmpty then
      { acc' with batch := acc'.batch ++ [(msg, r.saved)],
                  processed := acc'.processed + 1 }
    else if r.failed then
      { acc' with events := acc'.events ++ [Event.attachFailed msg.id] }
    else acc'

def init_page_acc (fs : List String) (images0 processed0 : Nat) : PageAcc :=
  { batch := [], reached_older := false, fs := fs, images := images0,
    processed := processed0, events := [] }

def processPage (start_ts : Int) (fs : List String) (images0 processed0 : Nat)
    (msgs : List Message) : PageAcc :=
  msgs.foldl (page_step start_ts) (init_page_acc fs images0 processed0)

end Showcase

namespace Showcase

/-! ## BatchPersister (discord.rs lines 525–577, sqlite_manager.rs 47–58)

The `messages` table has `message_id TEXT PRIMARY KEY`; the batch
insert runs inside one transaction with one `INSERT OR IGNORE` per
message and a single commit.  The table is modelled as the list of its
rows; the `attachments` column holds a JSON array of path strings,
modelled as the list itself (the encoding is injective on lists of
strings). -/

structure DbRow where
  message_id : String
  channel_id : String
  author_id : String
  author_name : String
  author_avatar : Option String
  message_content : String
  attachments : List String
  timestamp : Int
deriving DecidableEq

def row_of (m : Message) (files : List String) : DbRow :=
  { message_id := m.id, channel_id := m.channel_id, author_id := m.author_id,
    author_name := m.author_name, author_avatar := m.author_avatar,
    message_content := m.content, attachments := files,
    timestamp := m.timestamp }

/-- `INSERT OR IGNORE INTO messages ...` keyed by the primary key. -/
def insert_or_ignore (db : List DbRow) (r : DbRow) : List DbRow :=
  if db.any (fun x => x.message_id == r.message_id) then db else db ++ [r]

def commit_batch (db : List DbRow) (batch : List (Message × List String)) :
    List DbRow :=
  batch.foldl (fun d p => insert_or_ignore d (row_of p.1 p.2)) db

/-- The transaction wrapper: on success (`tx.commit()` returns Ok) the
whole batch becomes visible; on failure the transaction rolls back and
nothing does. -/
def commit_tx (db : List DbRow) (batch : List (Message × List String))
    (ok : Bool) : List DbRow :=
  if ok then commit_batch db batch else db

/-! ## IngestionOrchestrator (discord.rs lines 302–621)

The remote's behaviour during one channel scan is a script: one entry
per `get_messages` call, either a page of messages (plus the verdict of
the transaction that will commit that page's batch) or a fetch error
that is or is not an HTTP 429. -/

inductive FetchResult where
  | page (msgs : List Message) (commit_ok : Bool)
  | fetchErr (is429 : Bool)
deriving DecidableEq

structure RunState where
  before_id : Option String
  total_fetched : Nat
  total_processed : Nat
  total_images : Nat
  fs : List String
  db : List DbRow
  events : List Event
  sleeps : List Nat
deriving DecidableEq

/-- Stable insertion of a message into an ascending-by-timestamp list:
the message goes before the first element with an equal or larger key,
so earlier elements with equal keys keep their relative order. -/
def insert_by_ts (m : Message) : List Message → List Message
  | [] => [m]
  | x :: xs =>
      if x.timestamp < m.timestamp then x :: insert_by_ts m xs
      else m :: x :: xs

/-- `msgs.sort_by_key(|m| m.timestamp)` (Rust's stable ascending sort),
modelled as stable insertion sort. -/
def sort_by_timestamp : List Message → List Message
  | [] => []
  | m :: rest => insert_by_ts m (sort_by_timestamp rest)

/-- The state after one successfully fetched non-empty page: bump
`total_fetched`, sort oldest-first, set the cursor to the oldest
message of the page, process every message, and commit the batch (when
non-empty) in one transaction, emitting the DB-error event when the
transaction fails. -/
def after_page (start_ts : Int) (st : RunState) (msgs : List Message)
    (commit_ok : Bool) : RunState :=
  let fetched := st.total_fetched + msgs.length
  let sorted := sort_by_timestamp msgs
  let pr := processPage start_ts st.fs st.total_images st.total_processed sorted
  { before_id := match sorted.head? with
      | some f => some f.id
      | none => st.before_id
    total_fetched := fetched
    total_processed := pr.processed
    total_images := pr.images
    fs := pr.fs
    db := if pr.batch.isEmpty then st.db else commit_tx st.db pr.batch commit_ok
    events := st.events ++ [Event.progressFetched fetched] ++ pr.events ++
      (if pr.batch.isEmpty then [] else if commit_ok then [] else [Event.dbError])
    sleeps := st.sleeps }

/-- `reached_older_messages` for the page (stop condition of the scan). -/
def reached_older_page (start_ts : Int) (st : RunState) (msgs : List Message) : Bool :=
  (processPage start_ts st.fs st.total_images st.total_processed
    (sort_by_timestamp msgs)).reached_older

/-- The per-channel message loop (discord.rs lines 325–604), one
recursive step per `get_messages` call; the script ending means the
remote is not consulted further.  A fetch error always emits the
fetch-error event first; a 429 then emits the rate-limit status,
sleeps 5 seconds and retries with unchanged cursor and counters, while
any other error breaks the loop. -/
def channelLoop (start_ts : Int) (chan : String) :
    List FetchResult → RunState → RunState
  | [], st => st
  | .page msgs commit_ok :: rest, st =>
    if msgs.isEmpty then st
    else if reached_older_page start_ts st msgs then after_page start_ts st msgs commit_ok
    else channelLoop start_ts chan rest (after_page start_ts st msgs commit_ok)
  | .fetchErr is429 :: rest, st =>
    if is429 then
      channelLoop start_ts chan rest
        { st with events := st.events ++ [Event.fetchError chan] ++ [Event.rateLimited],
                  sleeps := st.sleeps ++ [5] }
    else { st with events := st.events ++ [Event.fetchError chan] }

/-- The `for chan_str in channel_ids` loop (discord.rs lines 302–606),
for channels whose identifiers parsed successfully: the cursor is
re-declared (`None`) per channel and the scan runs to its stop
condition before the next channel starts. -/
def runChannels (start_ts : Int) :
    List (String × List FetchResult) → RunState → RunState
  | [], st => st
  | (chan, script) :: rest, st =>
    let st0 := { st with before_id := none,
                         events := st.events ++ [Event.startChannel chan] }
    runChannels start_ts rest (channelLoop start_ts chan script st0)

def init_run_state (fs : List String) (db : List DbRow) : RunState :=
  { before_id := none, total_fetched := 0, total_processed := 0,
    total_images := 0, fs := fs, db := db, events := [], sleeps := [] }

end Showcase

namespace Showcase

/-! ## Concrete fixtures used by counterexamples and witnesses -/

/-- A download environment in which everything succeeds. -/
def envOk : DlEnv := { send := .ok 200, read_bytes := .ok (), write := .ok () }

/-- A download environment whose HTTP GET returns status 500. -/
def env500 : DlEnv := { send := .ok 500, read_bytes := .ok (), write := .ok () }

def att500 : Attachment :=
  { id := "1", filename := "a.png", content_type := none, env := env500 }

def attOk : Attachment :=
  { id := "2", filename := "b.png", content_type := none, env := envOk }

/-- A message with one 500-failing and one succeeding qualifying image. -/
def msgMixed : Message :=
  { id := "10", channel_id := "77", author_id := "5", author_name := "alice",
    author_avatar := none, content := "hi", attachments := [att500, attOk],
    timestamp := 100 }

/-- A message whose only attachment gets an HTTP 500. -/
def msgOnly500 : Message :=
  { id := "A", channel_id := "77", author_id := "5", author_name := "alice",
    author_avatar := none, content := "first", attachments := [att500],
    timestamp := 100 }

def attOkB : Attachment :=
  { id := "3", filename := "c.jpg", content_type := some "image/jpeg", env := envOk }

/-- A later in-page message whose single attachment downloads fine. -/
def msgAfter : Message :=
  { id := "B", channel_id := "77", author_id := "6", author_name := "bob",
    author_avatar := none, content := "second", attachments := [attOkB],
    timestamp := 200 }


/-- The starting accumulator of the per-message attachment loop, for a
run whose cache and counters start empty. -/
def msgRes0 : MsgResult :=
  { saved := [], failed := false, fs := [], images := 0, downloads := 0,
    events := [] }

/-- The row the fixture message produces. -/
def rowB : DbRow := row_of msgAfter [relative_path "B" attOkB]

end Showcase

namespace Showcase

/-! ## Supporting lemmas -/

/-- Every valid month has at least one day. -/
theorem one_le_days_in_month (y' : Int) (m' : Nat) (h1 : 1 ≤ m') (h2 : m' ≤ 12) :
    1 ≤ days_in_month y' m' := by
  interval_cases m' <;> simp [days_in_month] <;> split_ifs <;> omega

/-- Subtracting one month from January 1 lands on December 1 of the
previous year. -/
theorem checked_sub_months_jan (y : Int) (hy1 : 1970 ≤ y) (hy2 : y ≤ 9999) :
    checked_sub_months ⟨y, 1, 1⟩ 1 = some ⟨y - 1, 12, 1⟩ := by
  simp only [checked_sub_months, chrono_min_year, chrono_max_year]
  rw [if_neg (by push_cast; omega)]
  push_cast
  rw [show y * 12 + 0 - 1 = y * 12 - 1 by ring]
  rw [show (y * 12 - 1) / 12 = y - 1 by omega, show (y * 12 - 1) % 12 = 11 by omega]
  simp only [Option.some.injEq, Date.mk.injEq, true_and]
  rw [show Int.toNat 11 + 1 = 12 from rfl]
  refine ⟨rfl, ?_⟩
  rw [show days_in_month (y - 1) 12 = 31 from rfl]
  decide

/-- Subtracting one month from the 1st of month `m ≥ 2` lands on the 1st
of month `m - 1` of the same year. -/
theorem checked_sub_months_first (y : Int) (m : Nat) (hm2 : 2 ≤ m) (hm12 : m ≤ 12)
    (hy1 : 1970 ≤ y) (hy2 : y ≤ 9999) :
    checked_sub_months ⟨y, m, 1⟩ 1 = some ⟨y, m - 1, 1⟩ := by
  simp only [checked_sub_months, chrono_min_year, chrono_max_year]
  rw [if_neg (by push_cast; omega)]
  rw [show y * 12 + ((m : Int) - 1) - ((1:Nat) : Int) = y * 12 + ((m : Int) - 2) by
        push_cast; ring]
  rw [show (y * 12 + ((m : Int) - 2)) / 12 = y by omega,
      show (y * 12 + ((m : Int) - 2)) % 12 = (m : Int) - 2 by omega]
  have hmn : ((m : Int) - 2).toNat + 1 = m - 1 := by omega
  rw [hmn]
  have hd := one_le_days_in_month y (m - 1) (by omega) (by omega)
  simp only [Option.some.injEq, Date.mk.injEq, true_and]
  exact min_eq_left hd

/-- Case analysis of one `page_step`: the batch is unchanged, or the
message was in-window and got appended with its saved paths. -/
theorem page_step_batch (ts : Int) (acc : PageAcc) (m : Message) :
    (page_step ts acc m).batch = acc.batch ∨
    (¬ m.timestamp < ts ∧ (page_step ts acc m).batch
        = acc.batch ++ [(m, (process_message m.id m.attachments acc.fs acc.images).saved)]) := by
  by_cases h1 : m.timestamp < ts
  · left; simp [page_step, h1]
  · by_cases hf : (process_message m.id m.attachments acc.fs acc.images).failed
    · left; simp [page_step, h1, hf]
    · by_cases hs : (process_message m.id m.attachments acc.fs acc.images).saved.isEmpty
      · left; simp [page_step, h1, hf, hs]
      · right
        exact ⟨h1, by simp [page_step, h1, hf, hs]⟩

/-- Anything in the batch after folding `page_step` over messages was
already in the batch or belongs to an in-window message. -/
theorem mem_batch_foldl (ts : Int) (msgs : List Message) (acc : PageAcc)
    (mf : Message × List String)
    (h : mf ∈ (msgs.foldl (page_step ts) acc).batch) :
    mf ∈ acc.batch ∨ ts ≤ mf.1.timestamp := by
  induction msgs generalizing acc with
  | nil => exact Or.inl h
  | cons m rest ih =>
    rw [List.foldl_cons] at h
    rcases ih _ h with hmem | hts
    · rcases page_step_batch ts acc m with heq | ⟨hin, heq⟩
      · rw [heq] at hmem; exact Or.inl hmem
      · rw [heq] at hmem
        rcases List.mem_append.1 hmem with h1 | h2
        · exact Or.inl h1
        · right
          rw [List.mem_singleton.1 h2]
          dsimp only
          omega
    · exact Or.inr hts

/-- Anything in the table after a batch insert was already there or is
the row of some batch entry. -/
theorem mem_commit_batch (batch : List (Message × List String)) (db : List DbRow)
    (r : DbRow) (h : r ∈ commit_batch db batch) :
    r ∈ db ∨ ∃ p ∈ batch, r = row_of p.1 p.2 := by
  induction batch generalizing db with
  | nil => exact Or.inl h
  | cons p rest ih =>
    rw [commit_batch, List.foldl_cons] at h
    rcases ih _ h with hdb | ⟨q, hq, rfl⟩
    · unfold insert_or_ignore at hdb
      split at hdb
      · exact Or.inl hdb
      · rcases List.mem_append.1 hdb with h1 | h2
        · exact Or.inl h1
        · right
          exact ⟨p, List.mem_cons_self p rest, List.mem_singleton.1 h2⟩
    · right; exact ⟨q, List.mem_cons_of_mem _ hq, rfl⟩

/-- Committing one processed page adds only rows of in-window messages. -/
theorem mem_page_commit (ts : Int) (db : List DbRow) (fs : List String)
    (i p : Nat) (msgs : List Message) (ok : Bool) (r : DbRow)
    (h : r ∈ commit_tx db (processPage ts fs i p msgs).batch ok) :
    r ∈ db ∨ ts ≤ r.timestamp := by
  unfold commit_tx at h
  split at h
  · rcases mem_commit_batch _ _ _ h with h1 | ⟨q, hq, rfl⟩
    · exact Or.inl h1
    · right
      rcases mem_batch_foldl ts msgs _ q hq with h2 | h2
      · simp [init_page_acc] at h2
      · simpa [row_of] using h2
  · exact Or.inl h

/-- The table after one page of the channel loop contains only old rows
and in-window rows. -/
theorem after_page_db (ts : Int) (st : RunState) (msgs : List Message)
    (ok : Bool) (r : DbRow) (h : r ∈ (after_page ts st msgs ok).db) :
    r ∈ st.db ∨ ts ≤ r.timestamp := by
  simp only [after_page] at h
  split at h
  · exact Or.inl h
  · exact mem_page_commit ts st.db st.fs st.total_images st.total_processed
      (sort_by_timestamp msgs) ok r h

/-- No row with a timestamp below the cutoff is ever added during a
channel scan. -/
theorem channelLoop_db_invariant (ts : Int) (chan : String)
    (script : List FetchResult) (st : RunState) (r : DbRow)
    (h : r ∈ (channelLoop ts chan script st).db) :
    r ∈ st.db ∨ ts ≤ r.timestamp := by
  induction script generalizing st with
  | nil => exact Or.inl h
  | cons fr rest ih =>
    cases fr with
    | page msgs ok =>
      rw [channelLoop] at h
      split at h
      · exact Or.inl h
      · split at h
        · exact after_page_db ts st msgs ok r h
        · rcases ih _ h with h1 | h2
          · exact after_page_db ts st msgs ok r h1
          · exact Or.inr h2
    | fetchErr b =>
      rw [channelLoop] at h
      split at h
      · rcases ih _ h with h1 | h2
        · exact Or.inl h1
        · exact Or.inr h2
      · exact Or.inl h

/-- Run-level: rows added across all channels are all in-window. -/
theorem runChannels_db_invariant (ts : Int)
    (chans : List (String × List FetchResult)) (st : RunState) (r : DbRow)
    (h : r ∈ (runChannels ts chans st).db) :
    r ∈ st.db ∨ ts ≤ r.timestamp := by
  induction chans generalizing st with
  | nil => exact Or.inl h
  | cons cp rest ih =>
    obtain ⟨chan, script⟩ := cp
    rw [runChannels] at h
    rcases ih _ h with h1 | h2
    · rcases channelLoop_db_invariant ts chan script _ r h1 with h3 | h4
      · exact Or.inl h3
      · exact Or.inr h4
    · exact Or.inr h2


/-! ## Claims -/

/-- C4: for every filename and optional content type, the classifier
returns true exactly when (a) the declared content type starts with
`image/` and is not exactly `image/gif`, or (b) the lowercased
filename does not end in `.gif` and ends in one of `.png`, `.jpg`,
`.jpeg`, `.webp`; it is a pure function of these two inputs. -/
theorem c4_classifier_matches_spec (filename : String) (content_type : Option String) :
    is_image filename content_type = true ↔ qualifies_per_spec filename content_type := by
  cases content_type with
  | none =>
      simp [is_image, qualifies_per_spec]
      tauto
  | some t =>
      simp [is_image, qualifies_per_spec]
      tauto

/-- C3 counterexample: the claim asserts the classifier returns false
on `("clip.webp", "image/gif")`, but the extension clause makes it
return true — the MIME `image/gif` only blocks clause (a). -/
theorem c3_counterexample : is_image "clip.webp" (some "image/gif") = true := by
  decide

/-- C3 (amended): the classifier returns true for `("photo.PNG", None)`,
`("a.jpg", "image/jpeg")` and also for `("clip.webp", "image/gif")`;
it returns false for `("anim.gif", "image/gif")` and
`("doc.pdf", "application/pdf")`. -/
theorem c3_classifier_values :
    is_image "photo.PNG" none = true
    ∧ is_image "a.jpg" (some "image/jpeg") = true
    ∧ is_image "anim.gif" (some "image/gif") = false
    ∧ is_image "clip.webp" (some "image/gif") = true
    ∧ is_image "doc.pdf" (some "application/pdf") = false := by
  refine ⟨by decide, by decide, by decide, by decide, by decide⟩

/-- C5: for every wall-clock year/month, the cutoff computation
succeeds (no unwrap panics) and yields the 1st of the month
immediately preceding the current month — December 1 of the previous
year when the current month is January — and `start_ts` is the UTC
midnight timestamp of that date; the per-message window test compares
the message timestamp against it with `>=`. -/
theorem c5_cutoff_first_of_previous_month (y : Int) (m : Nat)
    (hm1 : 1 ≤ m) (hm2 : m ≤ 12) (hy1 : 1970 ≤ y) (hy2 : y ≤ 9999) :
    compute_cutoff y m =
      some (if m = 1 then Date.mk (y - 1) 12 1 else Date.mk y (m - 1) 1)
    ∧ start_ts_opt y m =
      some (86400 * days_from_civil
        (if m = 1 then Date.mk (y - 1) 12 1 else Date.mk y (m - 1) 1))
    ∧ (∀ s ts : Int, in_window s ts = decide (s ≤ ts)) := by
  have h1 : from_ymd_opt y m 1 = some ⟨y, m, 1⟩ := by
    rw [from_ymd_opt, if_pos]
    refine ⟨hm1, hm2, le_refl 1, one_le_days_in_month y m hm1 hm2, ?_, ?_⟩
    · simp only [chrono_min_year]; omega
    · simp only [chrono_max_year]; omega
  have hcc : compute_cutoff y m =
      some (if m = 1 then Date.mk (y - 1) 12 1 else Date.mk y (m - 1) 1) := by
    rw [compute_cutoff, h1, Option.some_bind]
    by_cases hm : m = 1
    · subst hm
      rw [checked_sub_months_jan y hy1 hy2]
      show from_ymd_opt (y - 1) 12 1 = _
      rw [if_pos rfl, from_ymd_opt, if_pos]
      refine ⟨by omega, by omega, le_refl 1, ?_, ?_, ?_⟩
      · rw [show days_in_month (y - 1) 12 = 31 from rfl]; omega
      · simp only [chrono_min_year]; omega
      · simp only [chrono_max_year]; omega
    · rw [checked_sub_months_first y m (by omega) hm2 hy1 hy2]
      show from_ymd_opt y (m - 1) 1 = _
      rw [if_neg hm, from_ymd_opt, if_pos]
      refine ⟨by omega, by omega, le_refl 1,
        one_le_days_in_month y (m - 1) (by omega) (by omega), ?_, ?_⟩
      · simp only [chrono_min_year]; omega
      · simp only [chrono_max_year]; omega
  refine ⟨hcc, ?_, ?_⟩
  · rw [start_ts_opt, hcc]; rfl
  · intro s ts
    rw [in_window]
    split_ifs with h
    · simp; omega
    · simp; omega


theorem c5_witness :
    compute_cutoff 2026 1 =
      some (if 1 = 1 then Date.mk (2026 - 1) 12 1 else Date.mk 2026 (1 - 1) 1)
    ∧ start_ts_opt 2026 1 =
      some (86400 * days_from_civil
        (if 1 = 1 then Date.mk (2026 - 1) 12 1 else Date.mk 2026 (1 - 1) 1)) :=
  ⟨(c5_cutoff_first_of_previous_month 2026 1 (by decide) (by decide) (by decide)
      (by decide)).1,
   (c5_cutoff_first_of_previous_month 2026 1 (by decide) (by decide) (by decide)
      (by decide)).2.1⟩

/-- C1 counterexample: a message with two qualifying attachments, one
answered with HTTP 500 and one downloading fine, is pushed onto the
batch with only the second attachment's path — a partial attachment
list — because the non-success branch does not set the failure flag;
the claim's "only when all qualifying attachments were saved or found
cached" is false on the code. -/
theorem c1_counterexample :
    (processPage 0 [] 0 0 [msgMixed]).batch = [(msgMixed, [relative_path "10" attOk])]
    ∧ is_image att500.filename att500.content_type = true
    ∧ relative_path "10" att500 ∉ [relative_path "10" attOk]
    ∧ (processPage 0 [] 0 0 [msgMixed]).fs = [local_filename "10" attOk] := by
  refine ⟨by decide, by decide, by decide, by decide⟩

/-- C1 (amended): an in-window message is pushed onto the batch exactly
when the attachment loop flagged no failure (request, body-read,
write or cache-dir error; a non-success HTTP status does NOT flag
failure) and at least one attachment path was recorded; when a failure
was flagged, the message is excluded and the indexing-error event for
its identifier is emitted. -/
theorem c1_message_batched_iff (start_ts : Int) (acc : PageAcc) (msg : Message)
    (h : ¬ msg.timestamp < start_ts) :
    (page_step start_ts acc msg).batch =
      acc.batch ++
        (if (process_message msg.id msg.attachments acc.fs acc.images).failed = false
            ∧ (process_message msg.id msg.attachments acc.fs acc.images).saved ≠ []
         then [(msg, (process_message msg.id msg.attachments acc.fs acc.images).saved)]
         else [])
    ∧ (page_step start_ts acc msg).events =
      acc.events ++ (process_message msg.id msg.attachments acc.fs acc.images).events ++
        (if (process_message msg.id msg.attachments acc.fs acc.images).failed = true
         then [Event.attachFailed msg.id] else []) := by
  unfold page_step
  rw [if_neg h]
  set r := process_message msg.id msg.attachments acc.fs acc.images with hr
  by_cases hf : r.failed
  · simp [hf, List.append_assoc]
  · by_cases hs : r.saved = []
    · simp [hf, hs]
    · have : r.saved.isEmpty = false := by
        simpa [List.isEmpty_iff] using hs
      simp [hf, hs, this]


theorem c1_witness :
    (page_step 0 (init_page_acc [] 0 0) msgAfter).batch =
      (init_page_acc [] 0 0).batch ++
        (if (process_message msgAfter.id msgAfter.attachments (init_page_acc [] 0 0).fs
              (init_page_acc [] 0 0).images).failed = false
            ∧ (process_message msgAfter.id msgAfter.attachments (init_page_acc [] 0 0).fs
              (init_page_acc [] 0 0).images).saved ≠ []
         then [(msgAfter, (process_message msgAfter.id msgAfter.attachments
                (init_page_acc [] 0 0).fs (init_page_acc [] 0 0).images).saved)]
         else [])
    ∧ (page_step 0 (init_page_acc [] 0 0) msgAfter).events =
      (init_page_acc [] 0 0).events ++
        (process_message msgAfter.id msgAfter.attachments (init_page_acc [] 0 0).fs
          (init_page_acc [] 0 0).images).events ++
        (if (process_message msgAfter.id msgAfter.attachments (init_page_acc [] 0 0).fs
              (init_page_acc [] 0 0).images).failed = true
         then [Event.attachFailed msgAfter.id] else []) :=
  c1_message_batched_iff 0 (init_page_acc [] 0 0) msgAfter (by decide)

/-- C2 counterexample: on an HTTP 500 for the only attachment of the
first message, the message is indeed dropped and the next message is
still processed, but no indexing-error event at all is emitted — the
claim's "an indexing-error event referencing that message's
identifier is emitted" is false on the code. -/
theorem c2_counterexample :
    (processPage 0 [] 0 0 [msgOnly500, msgAfter]).batch
        = [(msgAfter, [relative_path "B" attOkB])]
    ∧ (processPage 0 [] 0 0 [msgOnly500, msgAfter]).events.filter
        (fun e => e.isIndexingError) = [] := by
  refine ⟨by decide, by decide⟩

/-- C2 (amended): an attachment whose download request returns a
non-success HTTP status is failed without retry (exactly one request),
but the failure flag stays unset and no indexing-error event is
emitted for it; the attachment loop merely skips it and continues, so
the owning message is dropped only if no other attachment path was
recorded for it, and the remaining messages of the page are still
processed. -/
theorem c2_non_success_status_skipped (message_id : String) (a : Attachment) (fs : List String)
    (indexed : Nat) (c : Nat) (rest : List Attachment) (acc : MsgResult)
    (hsend : a.env.send = .ok c) (hc : http_success c = false)
    (hmiss : local_filename message_id a ∉ fs) (hq : is_image a.filename a.content_type = true)
    (hfs : acc.fs = fs) :
    ensure_local message_id a fs indexed =
      { step := .statusSkip, fs := fs, downloads := 1,
        events := [Event.downloading a.filename indexed] }
    ∧ attach_loop message_id (a :: rest) acc =
        attach_loop message_id rest
          { acc with downloads := acc.downloads + 1,
                     events := acc.events ++ [Event.downloading a.filename acc.images] } := by
  have h1 : ∀ i, ensure_local message_id a fs i =
      { step := .statusSkip, fs := fs, downloads := 1,
        events := [Event.downloading a.filename i] } := by
    intro i
    unfold ensure_local
    rw [if_neg hmiss, hsend]
    simp [hc]
  refine ⟨h1 indexed, ?_⟩
  rw [attach_loop]
  rw [hq]
  simp only [Bool.not_true]
  rw [if_neg (by simp)]
  rw [hfs, h1 acc.images]


theorem c2_witness :
    ensure_local "A" att500 [] 0 =
      { step := .statusSkip, fs := [], downloads := 1,
        events := [Event.downloading att500.filename 0] }
    ∧ attach_loop "A" (att500 :: []) msgRes0 =
        attach_loop "A" []
          { msgRes0 with downloads := msgRes0.downloads + 1,
                         events := msgRes0.events ++
                           [Event.downloading att500.filename msgRes0.images] } :=
  c2_non_success_status_skipped "A" att500 [] 0 500 [] msgRes0 rfl (by decide)
    (by decide) (by decide) rfl

/-- C6: no message with a timestamp strictly below the run's cutoff is
ever added to a page batch, and every row present in the store after a
whole run was either already there or carries a timestamp at or above
the cutoff — on every page of every channel. -/
theorem c6_cutoff_invariant (ts : Int) (fs : List String) (i p : Nat) (msgs : List Message)
    (mf : Message × List String) (chans : List (String × List FetchResult))
    (st : RunState) (r : DbRow) :
    (mf ∈ (processPage ts fs i p msgs).batch → ts ≤ mf.1.timestamp)
    ∧ (r ∈ (runChannels ts chans st).db → r ∈ st.db ∨ ts ≤ r.timestamp) := by
  constructor
  · intro h
    rcases mem_batch_foldl ts msgs _ mf h with h1 | h2
    · simp [init_page_acc] at h1
    · exact h2
  · exact runChannels_db_invariant ts chans st r

theorem c6_witness :
    ((0 : Int) ≤ (msgAfter, [relative_path "B" attOkB]).1.timestamp)
    ∧ (rowB ∈ (init_run_state [] []).db ∨ (0 : Int) ≤ rowB.timestamp) :=
  ⟨(c6_cutoff_invariant 0 [] 0 0 [msgAfter] (msgAfter, [relative_path "B" attOkB])
      [("77", [FetchResult.page [msgAfter] true])] (init_run_state [] []) rowB).1
      (by decide),
   (c6_cutoff_invariant 0 [] 0 0 [msgAfter] (msgAfter, [relative_path "B" attOkB])
      [("77", [FetchResult.page [msgAfter] true])] (init_run_state [] []) rowB).2
      (by decide)⟩

/-- C7: a 429 fetch failure makes the loop sleep 5 seconds and retry
with the same cursor and unchanged counters (the recursive call gets
the same state except for the appended events and sleep); any other
fetch failure ends the channel loop at once with the failure reported,
and the run proceeds with the next configured channel. -/
theorem c7_fetch_failure_handling (ts : Int) (chan : String) (rest : List FetchResult)
    (st : RunState) (more : List (String × List FetchResult)) :
    channelLoop ts chan (FetchResult.fetchErr true :: rest) st =
      channelLoop ts chan rest
        { st with events := st.events ++ [Event.fetchError chan] ++ [Event.rateLimited],
                  sleeps := st.sleeps ++ [5] }
    ∧ channelLoop ts chan (FetchResult.fetchErr false :: rest) st =
      { st with events := st.events ++ [Event.fetchError chan] }
    ∧ runChannels ts ((chan, FetchResult.fetchErr false :: rest) :: more) st =
      runChannels ts more
        { st with before_id := none,
                  events := st.events ++ [Event.startChannel chan]
                    ++ [Event.fetchError chan] } := by
  refine ⟨by rw [channelLoop]; rfl, by rw [channelLoop]; rfl, ?_⟩
  rw [runChannels, channelLoop]
  simp

/-- C10: every fetch failure — including a 429 that will be retried —
emits the indexing-error fetch event first, before the rate-limit
check, the "Rate limited, waiting..." status event and the 5-second
sleep. -/
theorem c10_error_event_precedes_rate_limit_wait (ts : Int) (chan : String) (rest : List FetchResult)
    (st : RunState) :
    channelLoop ts chan (FetchResult.fetchErr true :: rest) st =
      channelLoop ts chan rest
        { st with events := (st.events ++ [Event.fetchError chan]) ++ [Event.rateLimited],
                  sleeps := st.sleeps ++ [5] }
    ∧ (Event.fetchError chan).isIndexingError = true
    ∧ Event.rateLimited.isIndexingError = false
    ∧ (channelLoop ts chan (FetchResult.fetchErr false :: rest) st).events
        = st.events ++ [Event.fetchError chan] := by
  refine ⟨by rw [channelLoop]; rfl, rfl, rfl, by rw [channelLoop]; rfl⟩


/-- C8: the local filename is deterministically
`{message_id}_{attachment_id}.{extension}` with the extension taken
from the original filename or defaulting to `png`; a file already
present at the computed path is a success with the same relative path
and no network call, so running the download step twice performs
exactly one download and returns the same relative path both times. -/
theorem c8_download_idempotent (message_id : String) (a : Attachment) (fs : List String)
    (i j : Nat) (c : Nat)
    (hsend : a.env.send = .ok c) (hc : http_success c = true)
    (hbytes : a.env.read_bytes = .ok ()) (hwrite : a.env.write = .ok ())
    (hmiss : local_filename message_id a ∉ fs) :
    local_filename message_id a =
      message_id ++ "_" ++ a.id ++ "." ++ ((rust_extension a.filename).getD "png")
    ∧ ensure_local message_id a fs i =
        { step := .saved (relative_path message_id a),
          fs := fs ++ [local_filename message_id a], downloads := 1,
          events := [Event.downloading a.filename i] }
    ∧ ensure_local message_id a (fs ++ [local_filename message_id a]) j =
        { step := .saved (relative_path message_id a),
          fs := fs ++ [local_filename message_id a], downloads := 0,
          events := [] } := by
  refine ⟨rfl, ?_, ?_⟩
  · unfold ensure_local
    rw [if_neg hmiss, hsend]
    cases hb : a.env.read_bytes with
    | err => rw [hbytes] at hb; cases hb
    | ok u =>
      cases hw : a.env.write with
      | err => rw [hwrite] at hw; cases hw
      | ok v => simp [hc, hb, hw]
  · unfold ensure_local
    rw [if_pos (List.mem_append_right fs (List.mem_singleton.2 rfl))]


theorem c8_witness :
    local_filename "B" attOkB =
      "B" ++ "_" ++ attOkB.id ++ "." ++ ((rust_extension attOkB.filename).getD "png")
    ∧ ensure_local "B" attOkB [] 0 =
        { step := .saved (relative_path "B" attOkB),
          fs := [] ++ [local_filename "B" attOkB], downloads := 1,
          events := [Event.downloading attOkB.filename 0] }
    ∧ ensure_local "B" attOkB ([] ++ [local_filename "B" attOkB]) 1 =
        { step := .saved (relative_path "B" attOkB),
          fs := [] ++ [local_filename "B" attOkB], downloads := 0,
          events := [] } :=
  c8_download_idempotent "B" attOkB [] 0 1 200 rfl (by decide) rfl rfl (by decide)

/-- C9: a page batch is committed with an insert-or-ignore per message
keyed by the message identifier inside one transaction (a failed
transaction leaves the table untouched); persisting the same message
identifier twice, in two separate batches, leaves exactly one row and
the second upsert is a no-op. -/
theorem c9_upsert_idempotent (db : List DbRow) (m : Message) (fl fl2 : List String)
    (h : ∀ r ∈ db, r.message_id ≠ m.id) :
    commit_tx db [(m, fl)] true = db ++ [row_of m fl]
    ∧ commit_tx (commit_tx db [(m, fl)] true) [(m, fl2)] true = db ++ [row_of m fl]
    ∧ ((commit_tx db [(m, fl)] true).filter
        (fun r => r.message_id == m.id)).length = 1
    ∧ commit_tx db [(m, fl)] false = db := by
  have hany : db.any (fun x => x.message_id == (row_of m fl).message_id) = false := by
    rw [List.any_eq_false]
    intro x hx
    simpa [row_of] using h x hx
  have h1 : commit_tx db [(m, fl)] true = db ++ [row_of m fl] := by
    simp only [commit_tx, if_pos, commit_batch, List.foldl_cons, List.foldl_nil,
      insert_or_ignore, hany]
    simp
  refine ⟨h1, ?_, ?_, by simp [commit_tx]⟩
  · rw [h1]
    have hany2 : (db ++ [row_of m fl]).any
        (fun x => x.message_id == (row_of m fl2).message_id) = true := by
      rw [List.any_eq_true]
      exact ⟨row_of m fl, by simp [row_of]⟩
    simp only [commit_tx, if_pos, commit_batch, List.foldl_cons, List.foldl_nil,
      insert_or_ignore, hany2]
  · rw [h1, List.filter_append]
    have hnil : db.filter (fun r => r.message_id == m.id) = [] := by
      rw [List.filter_eq_nil_iff]
      intro x hx
      simpa using h x hx
    rw [hnil]
    simp [row_of]


theorem c9_witness :
    commit_tx [] [(msgAfter, ["x"])] true = [] ++ [row_of msgAfter ["x"]]
    ∧ commit_tx (commit_tx [] [(msgAfter, ["x"])] true) [(msgAfter, ["y"])] true
        = [] ++ [row_of msgAfter ["x"]]
    ∧ ((commit_tx [] [(msgAfter, ["x"])] true).filter
        (fun r => r.message_id == msgAfter.id)).length = 1
    ∧ commit_tx [] [(msgAfter, ["x"])] false = [] :=
  c9_upsert_idempotent [] msgAfter ["x"] ["y"]
    (fun r hr => absurd hr (List.not_mem_nil r))

end Showcase
